import Mathlib

/-!
Verification of the "Making" whiteboard editor against its specification.

This file shallowly embeds the data model and the operations of the
repository's asset-storage module (`src/utils/assetStorage.ts`), the layer
panel's recursive rendering (`src/components/LayerPanelMinimizable.tsx`),
the asset drag payload (`src/components/InspirationPanel.tsx`,
`src/components/RightPanel.tsx`), and the Gemini service wrapper
(`editImage`, `generateImageFromText`, `generateVideo`), and proves or
refutes the frozen claims about them.

JavaScript idioms are embedded explicitly: truthiness tests become
`jsTruthy`-style predicates, `x || y` becomes an explicit fallback,
optional / possibly-`undefined` values become `Option`, and a caught
exception becomes an `Except` that the embedding of the `try`/`catch`
discharges.  Persistence (`localStorage`) is modelled as the value handed
to `saveAssetLibrary`; the mutators are pure transforms exactly as in the
source.
-/

namespace Making

/-- The three fixed asset categories of `AssetCategory` in the source
(`'character' | 'scene' | 'prop'`). -/
inductive AssetCategory where
  | character
  | scene
  | prop
deriving DecidableEq, Repr

/-- Structure `AssetItem` from the source: a stored image with identifier, category,
name, base64 data URL, dimensions and creation timestamp. -/
structure AssetItem where
  id : String
  category : AssetCategory
  name : String
  dataUrl : String
  width : Nat
  height : Nat
  createdAt : Nat
deriving DecidableEq, Repr

/-- Structure `AssetLibrary` from the source: one ordered list of items per
category. -/
structure AssetLibrary where
  character : List AssetItem
  scene : List AssetItem
  prop : List AssetItem
deriving DecidableEq, Repr

/-- Access `lib[category]`: the list stored under a category key. -/
def AssetLibrary.get (lib : AssetLibrary) : AssetCategory → List AssetItem
  | .character => lib.character
  | .scene => lib.scene
  | .prop => lib.prop

/-- Spread `{ ...lib, [c]: xs }`: the library with the list under one category
key replaced, the embedding of the computed-key object spread used by
every mutator in `assetStorage.ts`. -/
def AssetLibrary.set (lib : AssetLibrary) (c : AssetCategory) (xs : List AssetItem) :
    AssetLibrary :=
  match c with
  | .character => { lib with character := xs }
  | .scene => { lib with scene := xs }
  | .prop => { lib with prop := xs }

/-- Function `addAsset` (`src/utils/assetStorage.ts` lines 123-132):
`{ ...lib, [item.category]: [item, ...lib[item.category]] }`.
The `saveAssetLibrary(next)` side effect persists exactly the returned
value, so the returned value is the whole observable result. -/
def addAsset (lib : AssetLibrary) (item : AssetItem) : AssetLibrary :=
  lib.set item.category (item :: lib.get item.category)

/-- Function `removeAsset` (`src/utils/assetStorage.ts` lines 154-163):
`{ ...lib, [category]: lib[category].filter(a => a.id !== id) }`. -/
def removeAsset (lib : AssetLibrary) (category : AssetCategory) (id : String) :
    AssetLibrary :=
  lib.set category ((lib.get category).filter (fun a => a.id ≠ id))

/-- Function `renameAsset` (`src/utils/assetStorage.ts` lines 188-197):
`{ ...lib, [category]: lib[category].map(a => a.id === id ? { ...a, name } : a) }`. -/
def renameAsset (lib : AssetLibrary) (category : AssetCategory) (id : String)
    (name : String) : AssetLibrary :=
  lib.set category
    ((lib.get category).map (fun a => if a.id = id then { a with name := name } else a))

lemma AssetLibrary.get_set_self (lib : AssetLibrary) (c : AssetCategory)
    (xs : List AssetItem) : (lib.set c xs).get c = xs := by
  cases c <;> rfl

lemma AssetLibrary.get_set_ne (lib : AssetLibrary) (c c' : AssetCategory)
    (xs : List AssetItem) (h : c' ≠ c) : (lib.set c xs).get c' = lib.get c' := by
  cases c <;> cases c' <;> first | rfl | exact absurd rfl h

lemma AssetLibrary.set_get_self (lib : AssetLibrary) (c : AssetCategory) :
    lib.set c (lib.get c) = lib := by
  cases c <;> rfl

lemma AssetLibrary.ext_get (lib lib' : AssetLibrary)
    (h : ∀ c, lib.get c = lib'.get c) : lib = lib' := by
  cases lib; cases lib'
  have hc := h .character
  have hs := h .scene
  have hp := h .prop
  simp only [AssetLibrary.get] at hc hs hp
  simp_all

/-- C5: `addAsset` prepends the item to its own category and leaves the
other two categories untouched.  Mutation of the input cannot arise: the
source builds `next` with an object spread and never writes to `lib`, and
the embedding is a pure function of `lib`. -/
theorem addAsset_prepend (lib : AssetLibrary) (item : AssetItem) :
    (addAsset lib item).get item.category = item :: lib.get item.category ∧
    ((addAsset lib item).get item.category).head? = some item ∧
    ∀ c, c ≠ item.category → (addAsset lib item).get c = lib.get c := by
  refine ⟨?_, ?_, ?_⟩
  · exact AssetLibrary.get_set_self ..
  · rw [addAsset, AssetLibrary.get_set_self]; rfl
  · intro c hc
    exact AssetLibrary.get_set_ne _ _ _ _ hc

/-- Sample item used to instantiate theorems with hypotheses. -/
def sampleItem : AssetItem :=
  { id := "1", category := .character, name := "Hero", dataUrl := "data:image/png;base64,AAA"
    width := 64, height := 64, createdAt := 1700000000 }

/-- A second sample item with the same id in another category. -/
def sampleProp : AssetItem :=
  { id := "1", category := .prop, name := "Sword", dataUrl := "data:image/png;base64,BBB"
    width := 32, height := 32, createdAt := 1700000001 }

/-- Sample library holding `sampleProp` under `prop`. -/
def sampleLib : AssetLibrary :=
  { character := [], scene := [], prop := [sampleProp] }

/-- Witness for `addAsset_prepend` at a concrete library and item:
the item lands in front of `character` and `scene` is untouched. -/
theorem addAsset_prepend_witness :
    ((addAsset sampleLib sampleItem).get .character).head? = some sampleItem ∧
    (addAsset sampleLib sampleItem).get .scene = sampleLib.get .scene :=
  ⟨(addAsset_prepend sampleLib sampleItem).2.1,
    (addAsset_prepend sampleLib sampleItem).2.2 .scene (by decide)⟩

/-- C6: removing an id that occurs nowhere in `lib[category]` returns a
library equal to the input (`filter` keeps every element, and writing the
unchanged list back under the key reproduces the library value). -/
theorem removeAsset_absent_id (lib : AssetLibrary) (c : AssetCategory) (id : String)
    (h : ∀ a ∈ lib.get c, a.id ≠ id) : removeAsset lib c id = lib := by
  have hfilter : (lib.get c).filter (fun a => a.id ≠ id) = lib.get c := by
    apply List.filter_eq_self.mpr
    intro a ha
    simpa using h a ha
  rw [removeAsset, hfilter, AssetLibrary.set_get_self]

/-- Witness for `removeAsset_absent_id`: id "2" is absent from
`sampleLib.prop`, so removal under `prop` is the identity. -/
theorem removeAsset_absent_id_witness :
    removeAsset sampleLib .prop "2" = sampleLib :=
  removeAsset_absent_id sampleLib .prop "2" (by decide)

/-- C10: `removeAsset` deletes every item of `lib[category]` whose id
matches (duplicate ids included), keeps exactly the items whose id
differs, and leaves the other two categories untouched. -/
theorem removeAsset_removes_duplicates (lib : AssetLibrary) (c : AssetCategory)
    (id : String) :
    (∀ a ∈ (removeAsset lib c id).get c, a.id ≠ id) ∧
    (∀ a, a ∈ (removeAsset lib c id).get c ↔ a ∈ lib.get c ∧ a.id ≠ id) ∧
    (∀ c', c' ≠ c → (removeAsset lib c id).get c' = lib.get c') := by
  refine ⟨?_, ?_, ?_⟩
  · intro a ha
    rw [removeAsset, AssetLibrary.get_set_self] at ha
    simpa using (List.mem_filter.mp ha).2
  · intro a
    rw [removeAsset, AssetLibrary.get_set_self]
    simp [List.mem_filter]
  · intro c' hc'
    exact AssetLibrary.get_set_ne _ _ _ _ hc'

/-- Library with a duplicated id "1" under `character` and the same id
under `prop`. -/
def dupLib : AssetLibrary :=
  { sampleLib with character := [sampleItem, { sampleItem with name := "Copy" }] }

/-- Witness for `removeAsset_removes_duplicates`: removing id "1" from
`dupLib.character` deletes both duplicates while the `prop` item of id
"1" survives. -/
theorem removeAsset_removes_duplicates_witness :
    (removeAsset dupLib .character "1").get .character = [] ∧
    (removeAsset dupLib .character "1").get .prop = dupLib.get .prop :=
  ⟨by decide, (removeAsset_removes_duplicates dupLib .character "1").2.2 .prop (by decide)⟩

/-- Structure `Element`, restricted to the fields the layer panel reads: identity,
kind, display name and the optional parent forming the forest. -/
structure Element where
  id : String
  type : String
  name : Option String
  parentId : Option String
deriving DecidableEq, Repr

/-- Function `renderOrderedLayers` (`LayerPanelMinimizable.tsx` lines 199-222):
filter the flat list by `parentId`, render each match at the current
indent `level`, and recurse into its children at `level + 1`.  The output
models the flat sequence of rendered `LayerItem`s as `(id, level)` pairs.
The JavaScript recursion has no fuel and terminates only because each
honest forest has finite parent chains (a `parentId` cycle overflows the
stack); `fuel` bounds the recursion depth, and any `fuel` exceeding the
longest parent chain reproduces the JavaScript result. -/
def renderOrderedLayers (fuel : Nat) (elements : List Element) (level : Nat)
    (parentId : Option String) : List (String × Nat) :=
  match fuel with
  | 0 => []
  | fuel + 1 =>
    ((elements.filter (fun el => el.parentId = parentId)).map
      (fun element =>
        (element.id, level) :: renderOrderedLayers fuel elements (level + 1)
          (some element.id))).flatten

/-- The panel body (`LayerPanelMinimizable.tsx` line 257):
`renderOrderedLayers([...elements].reverse())`, i.e. the recursion starts
on a reversed copy of the list at level 0 with no parent.  The spread
copies before reversing, so the underlying `elements` array is left
unchanged; the embedding is accordingly a pure function of `elements`. -/
def layerPanelRender (elements : List Element) : List (String × Nat) :=
  renderOrderedLayers (elements.length + 1) elements.reverse 0 none

/-- The ids rendered at the root level (indent 0), in display order. -/
def rootIds (rendered : List (String × Nat)) : List String :=
  (rendered.filter (fun p => p.2 = 0)).map Prod.fst

/-- Concrete root element A of the claimed scenario. -/
def elemA : Element := { id := "A", type := "shape", name := some "A", parentId := none }

/-- Concrete root element B of the claimed scenario. -/
def elemB : Element := { id := "B", type := "shape", name := some "B", parentId := none }

/-- Concrete element C, child of A, of the claimed scenario. -/
def elemC : Element := { id := "C", type := "shape", name := some "C", parentId := some "A" }

/-- C1 counterexample: on `[A, B, C]` with `C` a child of `A`, the panel's
recursion over the reversed list renders the roots as `[B, A]`, not
`[A, B]` as claimed: the root-level filter runs over `[C, B, A]` and so
meets `B` before `A`. -/
theorem layerPanel_root_order_counterexample :
    layerPanelRender [elemA, elemB, elemC] = [("B", 0), ("A", 0), ("C", 1)] ∧
    rootIds (layerPanelRender [elemA, elemB, elemC]) ≠ ["A", "B"] := by
  decide

/-- C1 amended: for distinct-id elements `[A, B, C]` with `A`, `B` roots
and `C` a child of `A`, the panel renders root level `[B, A]` in that
order (the reversal puts `B` before `A`), with `C` as the only child
rendered under `A`; the recursion works on a reversed copy, so the
underlying element list is untouched. -/
theorem layerPanel_render_ABC (A B C : Element)
    (hA : A.parentId = none) (hB : B.parentId = none) (hC : C.parentId = some A.id)
    (hAB : A.id ≠ B.id) (hAC : A.id ≠ C.id) :
    layerPanelRender [A, B, C] = [(B.id, 0), (A.id, 0), (C.id, 1)] := by
  simp [layerPanelRender, renderOrderedLayers, List.filter, hA, hB, hC, hAB, hAC,
    Ne.symm hAC]

/-- Witness for `layerPanel_render_ABC` at the concrete scenario
elements. -/
theorem layerPanel_render_ABC_witness :
    layerPanelRender [elemA, elemB, elemC] = [("B", 0), ("A", 0), ("C", 1)] :=
  layerPanel_render_ABC elemA elemB elemC rfl rfl rfl (by decide) (by decide)

/-- JavaScript `s.trim()`: strip leading and trailing whitespace, embedded
over the character list so that concrete instances evaluate. -/
def jsTrim (s : String) : String :=
  String.mk (((s.data.dropWhile Char.isWhitespace).reverse.dropWhile
    Char.isWhitespace).reverse)

/-- JavaScript `a || b` on a possibly-missing, possibly-empty string:
`undefined` and `""` are falsy and fall through to `b`. -/
def jsOrStr (a : Option String) (b : String) : String :=
  match a with
  | some s => if s = "" then b else s
  | none => b

/-- Handler `handleBlur` of `LayerItem` (`LayerPanelMinimizable.tsx` lines 84-91):
leaves edit mode; when the edit buffer trims to empty it resets the
buffer to `element.name || element.type` without calling `onRename`,
otherwise it calls `onRename(name)` with the buffer as typed.  The result
is the `onRename` payload (`none` = not invoked) paired with the buffer
after the handler. -/
def handleBlur (element : Element) (name : String) : Option String × String :=
  if jsTrim name = "" then (none, jsOrStr element.name element.type)
  else (some name, name)

/-- Handler `handleSaveEdit` of `InspirationPanel` (`InspirationPanel.tsx` lines
186-191): calls `onRename(category, itemId, editingName.trim())` only
when the edited row matches and the buffer trims to a non-empty string;
the result is the `onRename` payload (`none` = not invoked). -/
def handleSaveEdit (category : AssetCategory) (editingId : Option String)
    (editingName : String) (itemId : String) : Option (AssetCategory × String × String) :=
  if editingId = some itemId ∧ jsTrim editingName ≠ "" then
    some (category, itemId, jsTrim editingName)
  else none

/-- C7: a rename committed with a blank (empty or whitespace-only) string
invokes no rename callback — the layer keeps its previous name and the
edit buffer resets to it — and in both panels the callback fires only
when the trimmed input is non-empty. -/
theorem rename_rejects_blank (element : Element) (name : String)
    (category : AssetCategory) (editingId : Option String) (editingName : String)
    (itemId : String) :
    (jsTrim name = "" →
      handleBlur element name = (none, jsOrStr element.name element.type)) ∧
    ((handleBlur element name).1 ≠ none → jsTrim name ≠ "") ∧
    (jsTrim editingName = "" → handleSaveEdit category editingId editingName itemId = none) ∧
    (handleSaveEdit category editingId editingName itemId ≠ none →
      jsTrim editingName ≠ "") := by
  refine ⟨fun h => by simp [handleBlur, h], fun h => ?_, fun h => ?_, fun h => ?_⟩
  · intro hblank
    exact h (by simp [handleBlur, hblank])
  · simp [handleSaveEdit, h]
  · intro hblank
    exact h (by simp [handleSaveEdit, hblank])

/-- Witness for `rename_rejects_blank`: a whitespace-only commit in each
panel invokes no rename callback. -/
theorem rename_rejects_blank_witness :
    handleBlur elemA "   " = (none, "A") ∧
    handleSaveEdit .character (some "1") "  " "1" = none :=
  ⟨(rename_rejects_blank elemA "   " .character (some "1") "  " "1").1 rfl,
    (rename_rejects_blank elemA "   " .character (some "1") "  " "1").2.2.1 rfl⟩

/-- JSON values, the common model for persisted payloads and drag-data
payloads. -/
inductive Json where
  | null
  | bool (b : Bool)
  | num (n : Int)
  | str (s : String)
  | arr (elems : List Json)
  | obj (fields : List (String × Json))

/-- JavaScript truthiness of a JSON value: `null`, `false`, `0` and `""`
are falsy; every array and object is truthy. -/
def Json.truthy : Json → Bool
  | .null => false
  | .bool b => b
  | .num n => n ≠ 0
  | .str s => s ≠ ""
  | .arr _ => true
  | .obj _ => true

/-- Whether a JSON value is an array. -/
def Json.isArr : Json → Bool
  | .arr _ => true
  | _ => false

/-- Member lookup on a JSON object (`none` = no such member, or the value
is not an object). -/
def Json.lookup : Json → String → Option Json
  | .obj fields, k => (fields.find? (fun p => p.1 = k)).map Prod.snd
  | _, _ => none

/-- JavaScript member access `v.k` on a parsed JSON value: access on
`null` throws a `TypeError` (the `error` case); on any other non-object
it yields `undefined` (`none`); on an object it looks the key up. -/
def Json.jsField : Json → String → Except Unit (Option Json)
  | .null, _ => .error ()
  | .obj fields, k => .ok ((fields.find? (fun p => p.1 = k)).map Prod.snd)
  | _, _ => .ok none

/-- The string key of a category, as serialized into JSON. -/
def AssetCategory.key : AssetCategory → String
  | .character => "character"
  | .scene => "scene"
  | .prop => "prop"

/-- The JSON object `JSON.stringify` receives for an `AssetItem`: its
fields in the declaration order of the object literal. -/
def assetItemJson (a : AssetItem) : Json :=
  .obj [("id", .str a.id), ("category", .str a.category.key), ("name", .str a.name),
    ("dataUrl", .str a.dataUrl), ("width", .num a.width), ("height", .num a.height),
    ("createdAt", .num a.createdAt)]

/-- Handler `handleDragStart` of `InspirationPanel` (`InspirationPanel.tsx` lines
167-171): `e.dataTransfer.setData('text/plain', JSON.stringify({ __makingAsset: true, item }))`.
The write into the native drag-data channel is modelled as the MIME
format paired with the object handed to `JSON.stringify`. -/
def inspirationDragData (item : AssetItem) : String × Json :=
  ("text/plain", .obj [("__makingAsset", .bool true), ("item", assetItemJson item)])

/-- Handler `handleDragStart` of `RightPanel` (`RightPanel.tsx` lines 113-116):
the identical `setData('text/plain', JSON.stringify({ __makingAsset: true, item }))`. -/
def rightPanelDragData (item : AssetItem) : String × Json :=
  ("text/plain", .obj [("__makingAsset", .bool true), ("item", assetItemJson item)])

/-- C2 counterexample: the payload object written by both drag handlers
has no member named `__appAsset` at all — its flag member is named
`__makingAsset` — so the payload is not the serialization of an object
with `__appAsset` set to `true`. -/
theorem dragPayload_flag_counterexample :
    (inspirationDragData sampleItem).2.lookup "__appAsset" = none ∧
    (rightPanelDragData sampleItem).2.lookup "__appAsset" = none ∧
    (inspirationDragData sampleItem).2 ≠
      Json.obj [("__appAsset", .bool true), ("item", assetItemJson sampleItem)] := by
  refine ⟨rfl, rfl, ?_⟩
  intro h
  simp [inspirationDragData] at h

/-- C2 amended: for every dragged asset item, both drag handlers write
under MIME type `text/plain` the JSON serialization of
`{ __makingAsset: true, item }` — the flag member is `__makingAsset`
(set to `true`), not `__appAsset`, and `item` holds the dragged
`AssetItem`. -/
theorem dragPayload_format (item : AssetItem) :
    (inspirationDragData item).1 = "text/plain" ∧
    (inspirationDragData item).2.lookup "__makingAsset" = some (.bool true) ∧
    (inspirationDragData item).2.lookup "item" = some (assetItemJson item) ∧
    rightPanelDragData item = inspirationDragData item := by
  exact ⟨rfl, rfl, rfl, rfl⟩

/-- The object shape `loadAssetLibrary` returns: the code builds
`{ character: parsed.character || [], scene: ..., prop: ... }` with no
array check, so each slot holds an arbitrary JSON value. -/
structure LoadedLibrary where
  character : Json
  scene : Json
  prop : Json

/-- A category slot of a loaded library. -/
def LoadedLibrary.field (lib : LoadedLibrary) : AssetCategory → Json
  | .character => lib.character
  | .scene => lib.scene
  | .prop => lib.prop

/-- The empty library `{ character: [], scene: [], prop: [] }`. -/
def emptyLoadedLibrary : LoadedLibrary :=
  { character := .arr [], scene := .arr [], prop := .arr [] }

/-- JavaScript `x || []` on a possibly-`undefined` member value. -/
def jsOrEmptyArr : Option Json → Json
  | some v => if v.truthy then v else .arr []
  | none => .arr []

/-- The body of the success path of `loadAssetLibrary`: read the three
members off the parsed value (a `TypeError` propagates as `error`) and
apply the `|| []` fallback to each. -/
def loadAssetLibraryBody (parsed : Json) : Except Unit LoadedLibrary := do
  let c ← parsed.jsField "character"
  let s ← parsed.jsField "scene"
  let p ← parsed.jsField "prop"
  pure { character := jsOrEmptyArr c, scene := jsOrEmptyArr s, prop := jsOrEmptyArr p }

/-- Function `loadAssetLibrary` (`src/utils/assetStorage.ts` lines 65-81).  The
`localStorage` read and `JSON.parse` are abstracted into the argument:
`none` models a missing (or empty, hence falsy) stored string, `some
none` a stored string on which `JSON.parse` throws, and `some (some
parsed)` a successfully parsed payload.  The surrounding `try`/`catch`
turns any thrown `TypeError` into the empty library, so the function is
total. -/
def loadAssetLibrary : Option (Option Json) → LoadedLibrary
  | none => emptyLoadedLibrary
  | some none => emptyLoadedLibrary
  | some (some parsed) =>
    match loadAssetLibraryBody parsed with
    | .ok lib => lib
    | .error _ => emptyLoadedLibrary

/-- A syntactically valid stored payload whose `character` member is the
number `1`. -/
def corruptStored : Json :=
  .obj [("character", .num 1), ("scene", .arr []), ("prop", .arr [])]

/-- C3 counterexample: a parsable stored payload with a truthy non-array
`character` member is passed through unchecked, so the loaded library's
`character` category is the number `1`, not an array. -/
theorem loadAssetLibrary_nonarray_counterexample :
    (loadAssetLibrary (some (some corruptStored))).character = Json.num 1 ∧
    (loadAssetLibrary (some (some corruptStored))).character.isArr = false := by
  exact ⟨rfl, rfl⟩

/-- C3 amended: `loadAssetLibrary` never throws (it is total), returns
the empty library on a missing key or unparsable payload, and always
returns all three categories; but each category is only guaranteed to be
an array when the stored member is not a truthy non-array value — a
truthy member of the parsed payload is returned verbatim, with no array
check. -/
theorem loadAssetLibrary_shape (stored : Option (Option Json)) :
    ((stored = none ∨ stored = some none) →
      loadAssetLibrary stored = emptyLoadedLibrary) ∧
    (∀ c : AssetCategory,
      ((loadAssetLibrary stored).field c).isArr = true ∨
      (∃ parsed, stored = some (some parsed) ∧
        parsed.jsField c.key = .ok (some ((loadAssetLibrary stored).field c)) ∧
        ((loadAssetLibrary stored).field c).truthy = true)) := by
  constructor
  · rintro (rfl | rfl) <;> rfl
  · intro c
    match stored with
    | none => left; cases c <;> rfl
    | some none => left; cases c <;> rfl
    | some (some parsed) =>
      match hp : parsed with
      | .null => left; cases c <;> rfl
      | .bool b => left; cases c <;> rfl
      | .num n => left; cases c <;> rfl
      | .str s => left; cases c <;> rfl
      | .arr xs => left; cases c <;> rfl
      | .obj fields =>
        have hbody : loadAssetLibrary (some (some (.obj fields))) =
            { character := jsOrEmptyArr ((Json.obj fields).lookup "character")
              scene := jsOrEmptyArr ((Json.obj fields).lookup "scene")
              prop := jsOrEmptyArr ((Json.obj fields).lookup "prop") } := rfl
        have hfield : ∀ k, (Json.obj fields).jsField k =
            .ok ((Json.obj fields).lookup k) := fun _ => rfl
        rw [hbody]
        cases c with
        | character =>
          cases hv : (Json.obj fields).lookup "character" with
          | none => left; simp [LoadedLibrary.field, jsOrEmptyArr, Json.isArr]
          | some v =>
            by_cases ht : v.truthy
            · right
              exact ⟨.obj fields, rfl, by
                rw [hfield]
                simp [AssetCategory.key, hv, LoadedLibrary.field, jsOrEmptyArr, ht],
                by simp [LoadedLibrary.field, jsOrEmptyArr, ht]⟩
            · left
              simp [LoadedLibrary.field, jsOrEmptyArr, ht, Json.isArr]
        | scene =>
          cases hv : (Json.obj fields).lookup "scene" with
          | none => left; simp [LoadedLibrary.field, jsOrEmptyArr, Json.isArr]
          | some v =>
            by_cases ht : v.truthy
            · right
              exact ⟨.obj fields, rfl, by
                rw [hfield]
                simp [AssetCategory.key, hv, LoadedLibrary.field, jsOrEmptyArr, ht],
                by simp [LoadedLibrary.field, jsOrEmptyArr, ht]⟩
            · left
              simp [LoadedLibrary.field, jsOrEmptyArr, ht, Json.isArr]
        | prop =>
          cases hv : (Json.obj fields).lookup "prop" with
          | none => left; simp [LoadedLibrary.field, jsOrEmptyArr, Json.isArr]
          | some v =>
            by_cases ht : v.truthy
            · right
              exact ⟨.obj fields, rfl, by
                rw [hfield]
                simp [AssetCategory.key, hv, LoadedLibrary.field, jsOrEmptyArr, ht],
                by simp [LoadedLibrary.field, jsOrEmptyArr, ht]⟩
            · left
              simp [LoadedLibrary.field, jsOrEmptyArr, ht, Json.isArr]

/-- Witness for `loadAssetLibrary_shape`: a missing key loads the empty
library, and on the corrupted payload the `scene` slot is still an
array. -/
theorem loadAssetLibrary_shape_witness :
    loadAssetLibrary none = emptyLoadedLibrary ∧
    (loadAssetLibrary (some (some corruptStored))).scene.isArr = true :=
  ⟨(loadAssetLibrary_shape none).1 (Or.inl rfl),
    by
      rcases (loadAssetLibrary_shape (some (some corruptStored))).2 .scene with h | h
      · exact h
      · exact h.choose_spec.2.2⟩

/-- Structure `ImageInput` of the Gemini service: a data URL plus MIME type. -/
structure ImageInput where
  href : String
  mimeType : String
deriving DecidableEq, Repr

/-- A request content part: either the prompt text or inline image data.
The `data` of an inline part is `Option` because the mask path indexes
`split(',')[1]`, which is `undefined` when the href has no comma. -/
inductive GPart where
  | text (text : String)
  | inlineData (data : Option String) (mimeType : String)
deriving DecidableEq, Repr

/-- The image-part mapping of `editImage` (`src/unnamed/part_005` lines
83-92): split the data URL at commas and use the part after the first
comma when there is one, the whole string otherwise. -/
def toImagePart (image : ImageInput) : GPart :=
  let dataUrlParts := image.href.splitOn ","
  GPart.inlineData
    (if dataUrlParts.length > 1 then dataUrlParts.get? 1 else dataUrlParts.get? 0)
    image.mimeType

/-- The mask part of `editImage` (lines 95-100):
`mask.href.split(',')[1]` with the mask's MIME type. -/
def toMaskPart (mask : ImageInput) : GPart :=
  GPart.inlineData ((mask.href.splitOn ",").get? 1) mask.mimeType

/-- The parts assembly of `editImage` (lines 102-110):
`maskPart ? [textPart, ...imageParts, maskPart] : [...imageParts, textPart]`. -/
def editImageParts (images : List ImageInput) (prompt : String)
    (mask : Option ImageInput) : List GPart :=
  let imageParts := images.map toImagePart
  let textPart := GPart.text prompt
  match mask with
  | some m => textPart :: imageParts ++ [toMaskPart m]
  | none => imageParts ++ [textPart]

/-- C4: whenever a mask is provided, the parts list sent to the model is
the prompt text first, then the image parts in input order, then the mask
part last. -/
theorem editImage_mask_part_order (images : List ImageInput) (prompt : String)
    (mask : ImageInput) :
    editImageParts images prompt (some mask) =
      [GPart.text prompt] ++ images.map toImagePart ++ [toMaskPart mask] ∧
    (editImageParts images prompt (some mask)).head? = some (GPart.text prompt) ∧
    (editImageParts images prompt (some mask)).getLast? = some (toMaskPart mask) ∧
    ((editImageParts images prompt (some mask)).drop 1).dropLast =
      images.map toImagePart := by
  refine ⟨rfl, rfl, ?_, ?_⟩
  · show (GPart.text prompt :: (images.map toImagePart ++ [toMaskPart mask])).getLast? =
      some (toMaskPart mask)
    rw [List.getLast?_cons]
    simp [List.getLast?_concat]
  · show (images.map toImagePart ++ [toMaskPart mask]).dropLast = images.map toImagePart
    rw [List.dropLast_concat]

/-- Inline image data of a response part; both members may be absent in
the wire type. -/
structure InlineData where
  data : Option String
  mimeType : Option String
deriving DecidableEq, Repr

/-- One part of a model response: possibly inline image data, possibly
text. -/
structure ResponsePart where
  inlineData : Option InlineData
  text : Option String
deriving DecidableEq, Repr

/-- The `content` of a candidate.  The wire type allows `parts` to be
absent; `editImage` iterates `content.parts` unchecked, so an absent
array makes the `for...of` throw a `TypeError`. -/
structure CandidateContent where
  parts : Option (List ResponsePart)
deriving DecidableEq, Repr

/-- One response candidate. -/
structure Candidate where
  content : Option CandidateContent
  finishReason : Option String
deriving DecidableEq, Repr

/-- A `generateContent` response as `editImage` reads it. -/
structure GenerateContentResult where
  candidates : Option (List Candidate)
deriving DecidableEq, Repr

/-- The value `editImage` resolves with:
`{ newImageBase64, newImageMimeType, textResponse }`. -/
structure EditImageResult where
  newImageBase64 : Option String
  newImageMimeType : Option String
  textResponse : Option String
deriving DecidableEq, Repr

/-- JavaScript truthiness of a possibly-absent string: `undefined`,
`null` and `""` are falsy. -/
def strTruthy : Option String → Bool
  | some s => s ≠ ""
  | none => false

/-- The part loop of `editImage` (`src/unnamed/part_005` lines 133-142):
walk the parts in order; a part with `inlineData` overwrites the image
fields, otherwise a part with truthy `text` overwrites the text field. -/
def extractParts : List ResponsePart → EditImageResult → EditImageResult
  | [], acc => acc
  | part :: rest, acc =>
    match part.inlineData with
    | some inl =>
      extractParts rest
        { acc with newImageBase64 := inl.data, newImageMimeType := inl.mimeType }
    | none =>
      if strTruthy part.text then extractParts rest { acc with textResponse := part.text }
      else extractParts rest acc

/-- The blocked-response message of `editImage` (lines 144-148):
the fixed sentence, with the first candidate's truthy `finishReason`
appended when there is one. -/
def blockedText (response : GenerateContentResult) : String :=
  let base := "The AI response was blocked or did not contain content."
  match response.candidates with
  | some (c :: _) =>
    match c.finishReason with
    | some r => if r ≠ "" then base ++ " (Reason: " ++ r ++ ")" else base
    | _ => base
  | _ => base

/-- The pre-fallback result of `editImage`'s response handling (lines
124-149): when the first candidate has content, iterate its parts —
a `TypeError` on an absent `parts` array propagates as `error`, which
the surrounding catch rethrows as a Gemini API error — otherwise report
the blocked message. -/
def editImageBase (response : GenerateContentResult) : Except Unit EditImageResult :=
  match response.candidates with
  | some (c :: _) =>
    match c.content with
    | some content =>
      match content.parts with
      | some parts =>
        .ok (extractParts parts
          { newImageBase64 := none, newImageMimeType := none, textResponse := none })
      | none => .error ()
    | none =>
      .ok { newImageBase64 := none, newImageMimeType := none,
            textResponse := some (blockedText response) }
  | _ =>
    .ok { newImageBase64 := none, newImageMimeType := none,
          textResponse := some (blockedText response) }

/-- The full response handling of `editImage` (lines 124-157): after the
part loop, line 152's `if (!newImageBase64)` falls back to a fixed
explanation unless a truthy text response is already present.  The
`error` case models the `TypeError` thrown on a content whose `parts`
array is absent, rethrown by the catch as a Gemini API error. -/
def parseEditImageResponse (response : GenerateContentResult) :
    Except Unit EditImageResult :=
  (editImageBase response).map (fun base =>
    if strTruthy base.newImageBase64 then base
    else
      { base with
        textResponse :=
          if strTruthy base.textResponse then base.textResponse
          else some "The AI did not generate a new image. Please try a different prompt." })

/-- A generated image file of the `generateImages` response. -/
structure GeneratedImageFile where
  imageBytes : Option String
deriving DecidableEq, Repr

/-- One generated image of the `generateImages` response. -/
structure GeneratedImage where
  image : Option GeneratedImageFile
deriving DecidableEq, Repr

/-- A `generateImages` response as `generateImageFromText` reads it. -/
structure GenerateImagesResult where
  generatedImages : Option (List GeneratedImage)
deriving DecidableEq, Repr

/-- The response handling of `generateImageFromText` (`src/unnamed/part_005`
lines 204-217): with a non-empty `generatedImages` return the first
image's bytes as PNG (reading `.imageBytes` off an absent `.image`
throws, which the catch rethrows — the `error` case); otherwise return no
image and the fixed explanatory text. -/
def parseGenerateImagesResponse (response : GenerateImagesResult) :
    Except Unit EditImageResult :=
  match response.generatedImages with
  | some (g :: _) =>
    match g.image with
    | some file =>
      .ok { newImageBase64 := file.imageBytes
            newImageMimeType := some "image/png"
            textResponse := none }
    | none => .error ()
  | _ =>
    .ok { newImageBase64 := none
          newImageMimeType := none
          textResponse := some "The AI did not generate an image. Please try a different prompt." }

/-- No part of the (first candidate of the) response carries inline image
data. -/
def noImagePart (response : GenerateContentResult) : Prop :=
  ∀ cands, response.candidates = some cands →
    ∀ c, cands.head? = some c →
      ∀ content, c.content = some content →
        ∀ parts, content.parts = some parts →
          ∀ part ∈ parts, part.inlineData = none

/-- The first candidate's content, when present, carries a parts array
(the case in which the part loop can run without throwing). -/
def partsArrayPresent (response : GenerateContentResult) : Prop :=
  ∀ cands, response.candidates = some cands →
    ∀ c, cands.head? = some c →
      ∀ content, c.content = some content → content.parts ≠ none

lemma extractParts_no_inline (parts : List ResponsePart) (acc : EditImageResult)
    (h : ∀ part ∈ parts, part.inlineData = none) :
    (extractParts parts acc).newImageBase64 = acc.newImageBase64 ∧
    ((extractParts parts acc).textResponse = acc.textResponse ∨
      strTruthy (extractParts parts acc).textResponse = true) := by
  induction parts generalizing acc with
  | nil => exact ⟨rfl, Or.inl rfl⟩
  | cons part rest ih =>
    have hpart : part.inlineData = none := h part (List.mem_cons_self ..)
    have hrest : ∀ p ∈ rest, p.inlineData = none :=
      fun p hp => h p (List.mem_cons_of_mem _ hp)
    rw [extractParts, hpart]
    by_cases ht : strTruthy part.text = true
    · rcases ih { acc with textResponse := part.text } hrest with ⟨h1, h2 | h2⟩
      · exact ⟨by simp [ht, h1], Or.inr (by rw [if_pos ht, h2]; exact ht)⟩
      · exact ⟨by simp [ht, h1], Or.inr (by rw [if_pos ht]; exact h2)⟩
    · rcases ih acc hrest with ⟨h1, h2⟩
      rw [if_neg ht]
      exact ⟨h1, h2⟩

lemma editImageBase_no_image (response : GenerateContentResult)
    (hno : noImagePart response) (hparts : partsArrayPresent response) :
    ∃ b, editImageBase response = .ok b ∧ b.newImageBase64 = none := by
  rw [editImageBase]
  rcases hc : response.candidates with _ | cands
  · exact ⟨_, rfl, rfl⟩
  · rcases cands with _ | ⟨c, cs⟩
    · exact ⟨_, rfl, rfl⟩
    · rcases hcont : c.content with _ | content
      · simp only [hcont]
        exact ⟨_, rfl, rfl⟩
      · rcases hp : content.parts with _ | parts
        · exact absurd hp (hparts (c :: cs) hc c rfl content hcont)
        · simp only [hcont, hp]
          exact ⟨_, rfl, (extractParts_no_inline parts _
            (hno (c :: cs) hc c rfl content hcont parts hp)).1⟩

/-- C9 counterexample: successful responses with no image part on which
the claim fails.  `generateImageFromText` throws on
`generatedImages = [{image: undefined}]` (the code reads
`image.image.imageBytes`, and the catch rethrows the `TypeError` as a
Gemini API error) and returns a null `textResponse` on
`generatedImages = [{image: {imageBytes: undefined}}]`; `editImage`
throws when the first candidate's content lacks a `parts` array. -/
theorem ai_no_image_counterexample :
    parseGenerateImagesResponse { generatedImages := some [{ image := none }] } =
      .error () ∧
    parseGenerateImagesResponse
        { generatedImages := some [{ image := some { imageBytes := none } }] } =
      .ok { newImageBase64 := none
            newImageMimeType := some "image/png"
            textResponse := none } ∧
    parseEditImageResponse
        { candidates := some [{ content := some { parts := none }, finishReason := none }] } =
      .error () :=
  ⟨rfl, rfl, rfl⟩

/-- C9 amended: `editImage`'s handling of a successful response with no
image part returns normally — null image, non-empty textual explanation —
provided the first candidate's content, when present, carries a parts
array (an absent parts array makes the iteration throw, rethrown as a
Gemini API error); `generateImageFromText` returns normally with a null
image and the fixed explanatory text exactly on an absent or empty
`generatedImages` — a non-empty `generatedImages` whose first entry
lacks the image object throws instead, and one whose image lacks
`imageBytes` returns with a null `textResponse`. -/
theorem ai_no_image_reports_text :
    (∀ response : GenerateContentResult,
      noImagePart response → partsArrayPresent response →
      ∃ r, parseEditImageResponse response = .ok r ∧
        r.newImageBase64 = none ∧ strTruthy r.textResponse = true) ∧
    (∀ response : GenerateImagesResult,
      response.generatedImages = none ∨ response.generatedImages = some [] →
      parseGenerateImagesResponse response =
        .ok { newImageBase64 := none
              newImageMimeType := none
              textResponse :=
                some "The AI did not generate an image. Please try a different prompt." }) := by
  constructor
  · intro response hno hparts
    obtain ⟨b, hb, hbase⟩ := editImageBase_no_image response hno hparts
    refine ⟨{ b with textResponse := (if strTruthy b.textResponse then b.textResponse
        else some "The AI did not generate a new image. Please try a different prompt.") },
      ?_, hbase, ?_⟩
    · rw [parseEditImageResponse, hb]
      exact congrArg Except.ok (by
        beta_reduce
        rw [hbase]
        rfl)
    · by_cases ht : strTruthy b.textResponse = true
      · show strTruthy (if strTruthy b.textResponse = true then b.textResponse
            else some "The AI did not generate a new image. Please try a different prompt.")
            = true
        rw [if_pos ht]
        exact ht
      · show strTruthy (if strTruthy b.textResponse = true then b.textResponse
            else some "The AI did not generate a new image. Please try a different prompt.")
            = true
        rw [if_neg ht]
        rfl
  · rintro response (h | h) <;> rw [parseGenerateImagesResponse, h]

/-- Witness for `ai_no_image_reports_text`: a response with no candidates
yields a null image with the blocked-content explanation, and an absent
`generatedImages` yields the fixed explanation. -/
theorem ai_no_image_reports_text_witness :
    parseEditImageResponse { candidates := none } =
      .ok { newImageBase64 := none
            newImageMimeType := none
            textResponse := some "The AI response was blocked or did not contain content." } ∧
    parseGenerateImagesResponse { generatedImages := none } =
      .ok { newImageBase64 := none
            newImageMimeType := none
            textResponse :=
              some "The AI did not generate an image. Please try a different prompt." } := by
  constructor
  · obtain ⟨r, hr, h1, h2⟩ := ai_no_image_reports_text.1 { candidates := none }
      (fun cands h => by cases h) (fun cands h => by cases h)
    exact rfl
  · exact ai_no_image_reports_text.2 { generatedImages := none } (Or.inl rfl)

/-- The four rotating status strings of `generateVideo`
(`src/unnamed/part_005` lines 285-290). -/
def progressMessages : List String :=
  ["Rendering frames...", "Compositing video...", "Applying final touches...",
    "Almost there..."]

/-- An observable event of the polling loop: a progress callback, a timer
sleep, or a `getVideosOperation` poll. -/
inductive VideoEvent where
  | progress (message : String)
  | sleep (ms : Nat)
  | poll
deriving DecidableEq, Repr

/-- The polling loop of `generateVideo` (`src/unnamed/part_005` lines
296-301), as the trace of observable events it performs.  `done` is the
`done` flag of the current operation; `polls` lists the `done` flags the
successive `getVideosOperation` calls will return; `messageIndex` is the
rotating index.  Each iteration emits the progress callback, then the
10 000 ms sleep, then the poll, in the source's order; each step is
`await`ed, so the trace is their sequential order and a poll is never
issued before the previous one resolved.  `none` models a run whose
given poll results never report completion (the loop would still be
running). -/
def videoPollTrace (messageIndex : Nat) : Bool → List Bool → Option (List VideoEvent)
  | true, _ => some []
  | false, [] => none
  | false, p :: rest =>
    (videoPollTrace (messageIndex + 1) p rest).map
      (fun t =>
        VideoEvent.progress
          (progressMessages.getD (messageIndex % progressMessages.length) "") ::
        VideoEvent.sleep 10000 :: VideoEvent.poll :: t)

/-- One loop iteration's events: the progress callback with the message
of index `i mod 4`, the fixed 10-second sleep, then the poll. -/
def videoPollBlock (i : Nat) : List VideoEvent :=
  [VideoEvent.progress (progressMessages.getD (i % 4) ""),
    VideoEvent.sleep 10000, VideoEvent.poll]

lemma videoPollTrace_run (k n : Nat) :
    videoPollTrace k false (List.replicate n false ++ [true]) =
      some (((List.range (n + 1)).map (fun i => videoPollBlock (k + i))).flatten) := by
  induction n generalizing k with
  | zero => rfl
  | succ n ih =>
    rw [List.replicate_succ, List.cons_append, videoPollTrace, ih (k + 1),
      Option.map_some']
    conv_rhs => rw [List.range_succ_eq_map]
    simp only [List.map_cons, List.map_map, List.flatten_cons, Nat.add_zero]
    have harg : ((fun i => videoPollBlock (k + i)) ∘ Nat.succ) =
        (fun i => videoPollBlock (k + 1 + i)) := by
      funext i
      simp only [Function.comp_apply]
      congr 1
      omega
    rw [harg]
    rfl

/-- C8: a run of `generateVideo`'s polling loop that starts not-done and
completes on poll `n + 1` produces exactly one iteration block per poll —
the progress callback with message index `i mod 4` on iteration `i`, then
the fixed 10 000 ms sleep, then the poll — concatenated in iteration
order, so callbacks fire once per poll, messages rotate through the four
strings, and polls are strictly sequential. -/
theorem generateVideo_poll_trace (n : Nat) :
    videoPollTrace 0 false (List.replicate n false ++ [true]) =
      some (((List.range (n + 1)).map videoPollBlock).flatten) ∧
    (((List.range (n + 1)).map videoPollBlock).flatten).count VideoEvent.poll = n + 1 ∧
    (((List.range (n + 1)).map videoPollBlock).flatten).countP
        (fun e => match e with | .progress _ => true | _ => false) = n + 1 ∧
    ∀ e ∈ ((List.range (n + 1)).map videoPollBlock).flatten,
      (match e with | .sleep ms => ms = 10000 | _ => True) := by
  refine ⟨?_, ?_, ?_, ?_⟩
  · have h := videoPollTrace_run 0 n
    simpa using h
  · rw [List.count_flatten]
    simp [Function.comp_def, videoPollBlock, List.count_cons]
  · rw [List.countP_flatten]
    simp [Function.comp_def, videoPollBlock, List.countP_cons]
  · intro e he
    rw [List.mem_flatten] at he
    obtain ⟨l, hl, hel⟩ := he
    rw [List.mem_map] at hl
    obtain ⟨i, _, rfl⟩ := hl
    simp only [videoPollBlock, List.mem_cons, List.mem_singleton,
      List.not_mem_nil, or_false] at hel
    rcases hel with rfl | rfl | rfl
    · trivial
    · rfl
    · trivial

/-- Witness for `generateVideo_poll_trace` at a run of three polls: the
concrete trace, three poll events, and the sleep length of a concrete
sleep event of the trace. -/
theorem generateVideo_poll_trace_witness :
    videoPollTrace 0 false (List.replicate 2 false ++ [true]) =
      some (((List.range (2 + 1)).map videoPollBlock).flatten) ∧
    (((List.range (2 + 1)).map videoPollBlock).flatten).count VideoEvent.poll = 2 + 1 ∧
    (10000 : Nat) = 10000 :=
  ⟨(generateVideo_poll_trace 2).1, (generateVideo_poll_trace 2).2.1,
    (generateVideo_poll_trace 2).2.2.2 (VideoEvent.sleep 10000) (by decide)⟩

end Making
